import Mathlib

/-!
Shallow embedding of the OrderMaster storage layer (src/server/storage.ts),
its data model (src/shared/schema.ts together with src/db-init.ts) and the
apartment HTTP route handlers (registerRoutes), with theorems checking the
specification's claims about them.

SQL text values are modelled as lists of Unicode codepoints (`Str`) so that
the byte-wise comparison and the LIKE matching the database performs are
explicit executable functions.
-/

namespace OrderMaster

/-- SQL text value, modelled as a list of codepoints. -/
abbrev Str := List Nat

/-- Embed a Lean string literal as a `Str` (used for concrete inputs). -/
def str (s : String) : Str := s.data.map Char.toNat

/-- Byte-wise strict lexicographic comparison: the order the database uses
for `<` on varchar columns over ASCII data. -/
def strLt : Str → Str → Bool
  | [], [] => false
  | [], _ :: _ => true
  | _ :: _, [] => false
  | a :: as, b :: bs => a < b || (a == b && strLt as bs)

/-- Byte-wise lexicographic less-or-equal: the database order used for `>=`
comparisons and ORDER BY on varchar columns over ASCII data. -/
def strLe : Str → Str → Bool
  | [], _ => true
  | _ :: _, [] => false
  | a :: as, b :: bs => a < b || (a == b && strLe as bs)

/-- SQL LIKE pattern matching over codepoints: `%` (37) matches any
sequence, `_` (95) matches any single character, and backslash (92) escapes
the following pattern character (the PostgreSQL default escape). -/
def likeMatch : Str → Str → Bool
  | [], ts => ts.isEmpty
  | p :: ps, ts =>
    if p == 37 then
      likeMatch ps ts ||
        (match ts with
         | [] => false
         | _ :: ts' => likeMatch (p :: ps) ts')
    else if p == 95 then
      match ts with
      | [] => false
      | _ :: ts' => likeMatch ps ts'
    else if p == 92 then
      match ps with
      | [] => false
      | q :: ps' =>
        match ts with
        | [] => false
        | t :: ts' => q == t && likeMatch ps' ts'
    else
      match ts with
      | [] => false
      | t :: ts' => p == t && likeMatch ps ts'
termination_by ps ts => ps.length + ts.length
decreasing_by all_goals (simp_all <;> omega)

/-- Fuel-indexed digit expansion; with fuel at least the number itself it
computes the full decimal representation. -/
def natToStrAux : Nat → Nat → Str
  | 0, n => [48 + n % 10]
  | fuel + 1, n =>
    if n < 10 then [48 + n]
    else natToStrAux fuel (n / 10) ++ [48 + n % 10]

/-- Decimal representation of a natural number as big-endian digit
codepoints: the JS template interpolation `${n}` for a nonnegative integer. -/
def natToStr (n : Nat) : Str := natToStrAux n n

/-- JS `String(n).padStart(2, "0")`. -/
def pad2 (n : Nat) : Str :=
  let s := natToStr n
  List.replicate (2 - s.length) 48 ++ s

/-- Zero padding to four digits, as ISO 8601 requires of calendar years;
used to state which stored date strings are well-formed. -/
def pad4 (n : Nat) : Str :=
  let s := natToStr n
  List.replicate (4 - s.length) 48 ++ s

/-- The ISO `YYYY-MM-DD` date string with the given components (45 is the
hyphen codepoint). -/
def isoDate (y m d : Nat) : Str := pad4 y ++ [45] ++ pad2 m ++ [45] ++ pad2 d

/-- Lower-casing of one ASCII codepoint, used to state the specification's
case-insensitive search claim. -/
def toLowerCode (c : Nat) : Nat := if 65 ≤ c ∧ c ≤ 90 then c + 32 else c

/-- Lower-casing of a text value. -/
def lowerStr (s : Str) : Str := s.map toLowerCode

/-! ## Data model (src/shared/schema.ts, src/db-init.ts)

The drizzle schema declares a `user_id` column on apartments and employees,
but db-init.ts creates the live tables without that column and storage.ts
never writes or reads it, so ownership is modelled as an optional field. -/

/-- A row of the apartments table. -/
structure Apartment where
  id : Nat
  name : Str
  cleaning_date : Str
  start_time : Option Str
  status : Str
  payment_status : Str
  notes : Option Str
  price : Option Int
  user_id : Option Nat
deriving Repr, DecidableEq

/-- The insertable apartment payload: `insertApartmentSchema` omits `id`
and `user_id`. -/
structure InsertApartment where
  name : Str
  cleaning_date : Str
  start_time : Option Str
  status : Str
  payment_status : Str
  notes : Option Str
  price : Option Int
deriving Repr, DecidableEq

/-- A row of the employees table. -/
structure Employee where
  id : Nat
  first_name : Str
  last_name : Str
  user_id : Option Nat
deriving Repr, DecidableEq

/-- A row of the assignments bridge table. -/
structure Assignment where
  id : Nat
  apartment_id : Nat
  employee_id : Nat
deriving Repr, DecidableEq

/-- The projection `{id, first_name, last_name}` that
`getEmployeesForApartment` selects (name fields only, no `user_id`). -/
structure EmployeeName where
  id : Nat
  first_name : Str
  last_name : Str
deriving Repr, DecidableEq

/-- The database state: the three tables plus the serial-column counters. -/
structure Store where
  apartments : List Apartment
  employees : List Employee
  assignments : List Assignment
  nextApartmentId : Nat
  nextEmployeeId : Nat
  nextAssignmentId : Nat
deriving Repr, DecidableEq

/-- The `ApartmentWithAssignedEmployees` response shape. -/
structure ApartmentWithEmployees where
  apartment : Apartment
  employees : List EmployeeName
deriving Repr, DecidableEq

/-- Database errors surfaced by inserts and by the not-found throw in
`updateApartment`. -/
inductive DbError where
  | uniqueViolation
  | fkViolation
  | notFoundAfterUpdate
deriving Repr, DecidableEq

/-! ## Storage operations (src/server/storage.ts) -/

/-- Embeds `DatabaseStorage.getEmployeesForApartment`: the inner join of
employees with assignments restricted to one apartment, projected to the
name fields. -/
def getEmployeesForApartment (s : Store) (apartmentId : Nat) : List EmployeeName :=
  (s.assignments.filter (fun a => a.apartment_id == apartmentId)).filterMap
    (fun a =>
      (s.employees.find? (fun e => e.id == a.employee_id)).map
        (fun e => ⟨e.id, e.first_name, e.last_name⟩))

/-- The options object accepted by `getApartments`. -/
structure ListOptions where
  sortBy : Option Str := none
  search : Option Str := none

/-- The WHERE clause of `getApartments`'s search: the four LIKE patterns
`%search%` combined with OR. A NULL `notes` column makes its LIKE evaluate
to NULL, which is falsy inside OR. -/
def searchWhere (srch : Str) (a : Apartment) : Bool :=
  let pat := 37 :: (srch ++ [37])
  likeMatch pat a.name ||
    (match a.notes with
     | none => false
     | some n => likeMatch pat n) ||
    likeMatch pat a.status ||
    likeMatch pat a.payment_status

/-- Embeds `DatabaseStorage.getApartments`: filtering happens only when the
search option is a truthy (non-empty) string, sorting is ascending by name
when `sortBy === "name"` and otherwise descending by `cleaning_date`, and
each row is joined with its assigned employees. -/
def getApartments (s : Store) (options : ListOptions) : List ApartmentWithEmployees :=
  let base := s.apartments
  let filtered :=
    match options.search with
    | some srch => if srch == [] then base else base.filter (searchWhere srch)
    | none => base
  let sorted :=
    if options.sortBy == some (str "name") then
      filtered.mergeSort (fun a b => strLe a.name b.name)
    else
      filtered.mergeSort (fun a b => strLe b.cleaning_date a.cleaning_date)
  sorted.map (fun a => ⟨a, getEmployeesForApartment s a.id⟩)

/-- Embeds `DatabaseStorage.getApartment`: select by id, undefined when no
row matches, otherwise joined with the assigned employees. -/
def getApartment (s : Store) (id : Nat) : Option ApartmentWithEmployees :=
  match s.apartments.find? (fun a => a.id == id) with
  | none => none
  | some apt => some ⟨apt, getEmployeesForApartment s id⟩

/-- Embeds `DatabaseStorage.createAssignment`: an INSERT into assignments,
which the database rejects on a duplicate (apartment_id, employee_id) pair
(the unique-pair constraint) or on a dangling foreign key. -/
def createAssignment (s : Store) (apartment_id employee_id : Nat) :
    Except DbError (Store × Assignment) :=
  if s.assignments.any
      (fun x => x.apartment_id == apartment_id && x.employee_id == employee_id) then
    .error .uniqueViolation
  else if !(s.apartments.any (fun a => a.id == apartment_id)) then
    .error .fkViolation
  else if !(s.employees.any (fun e => e.id == employee_id)) then
    .error .fkViolation
  else
    let asg : Assignment := ⟨s.nextAssignmentId, apartment_id, employee_id⟩
    .ok ({ s with assignments := s.assignments ++ [asg],
                  nextAssignmentId := s.nextAssignmentId + 1 }, asg)

/-- The `for (const employeeId of employeeIds)` insertion loops of
`createApartment` and `updateApartment`; a failing insert aborts the loop
and surfaces the state reached so far (no transaction wraps the loop). -/
def insertAssignments (apartmentId : Nat) :
    List Nat → Store → Except (DbError × Store) Store
  | [], s => .ok s
  | e :: rest, s =>
    match createAssignment s apartmentId e with
    | .error err => .error (err, s)
    | .ok (s', _) => insertAssignments apartmentId rest s'

/-- The row built by `createApartment`'s INSERT: the serial column provides
the id, the insert payload the remaining fields (no user_id is written). -/
def newRow (s : Store) (apt : InsertApartment) : Apartment :=
  ⟨s.nextApartmentId, apt.name, apt.cleaning_date, apt.start_time,
   apt.status, apt.payment_status, apt.notes, apt.price, none⟩

/-- The store after `createApartment`'s INSERT of the apartment row. -/
def afterRowInsert (s : Store) (apt : InsertApartment) : Store :=
  { s with apartments := s.apartments ++ [newRow s apt],
           nextApartmentId := s.nextApartmentId + 1 }

/-- Embeds `DatabaseStorage.createApartment`: insert the row, then insert
one assignment per employee id, then return the row joined with its
employees. -/
def createApartment (s : Store) (apt : InsertApartment) (employeeIds : List Nat) :
    Except (DbError × Store) (Store × ApartmentWithEmployees) :=
  match insertAssignments (newRow s apt).id employeeIds (afterRowInsert s apt) with
  | .error e => .error e
  | .ok s2 =>
    .ok (s2, ⟨newRow s apt, getEmployeesForApartment s2 (newRow s apt).id⟩)

/-- The UPDATE ... SET of `updateApartment`: every insertable field is
overwritten, id and user_id are untouched. -/
def applyUpdate (r : Apartment) (apt : InsertApartment) : Apartment :=
  { r with name := apt.name, cleaning_date := apt.cleaning_date,
           start_time := apt.start_time, status := apt.status,
           payment_status := apt.payment_status, notes := apt.notes,
           price := apt.price }

/-- Embeds `DatabaseStorage.deleteAssignmentsByApartment`. -/
def deleteAssignmentsByApartment (s : Store) (apartmentId : Nat) : Store :=
  { s with assignments :=
      s.assignments.filter (fun a => !(a.apartment_id == apartmentId)) }

/-- The store after `updateApartment`'s UPDATE ... WHERE id: every matching
row is overwritten with the payload fields. -/
def updateFields (s : Store) (id : Nat) (apt : InsertApartment) : Store :=
  { s with apartments :=
      s.apartments.map (fun r => if r.id == id then applyUpdate r apt else r) }

/-- Embeds `DatabaseStorage.updateApartment`: update the row, delete all of
the apartment's assignments, insert one assignment per provided employee
id, then re-read the apartment; the `throw new Error(... not found after
update)` becomes the `notFoundAfterUpdate` error. -/
def updateApartment (s : Store) (id : Nat) (apt : InsertApartment)
    (employeeIds : List Nat) :
    Except (DbError × Store) (Store × ApartmentWithEmployees) :=
  match insertAssignments id employeeIds
      (deleteAssignmentsByApartment (updateFields s id apt) id) with
  | .error e => .error e
  | .ok s3 =>
    match getApartment s3 id with
    | none => .error (.notFoundAfterUpdate, s3)
    | some r => .ok (s3, r)

/-- Embeds `DatabaseStorage.deleteApartment` together with the declared
`ON DELETE CASCADE` from assignments.apartment_id. -/
def deleteApartment (s : Store) (id : Nat) : Store :=
  { s with apartments := s.apartments.filter (fun a => !(a.id == id)),
           assignments := s.assignments.filter (fun x => !(x.apartment_id == id)) }

/-- Embeds `DatabaseStorage.deleteEmployee` together with the declared
`ON DELETE CASCADE` from assignments.employee_id. -/
def deleteEmployee (s : Store) (id : Nat) : Store :=
  { s with employees := s.employees.filter (fun e => !(e.id == id)),
           assignments := s.assignments.filter (fun x => !(x.employee_id == id)) }

/-- The `${year}-${String(month).padStart(2, "0")}-01` lower bound built by
`getApartmentsByMonth`. -/
def monthStartStr (year month : Nat) : Str :=
  natToStr year ++ [45] ++ pad2 month ++ [45, 48, 49]

/-- The exclusive upper bound of `getApartmentsByMonth`: January 1 of the
next year when the month is 12, otherwise the first day of the next month. -/
def nextMonthStr (year month : Nat) : Str :=
  if month == 12 then natToStr (year + 1) ++ [45, 48, 49, 45, 48, 49]
  else natToStr year ++ [45] ++ pad2 (month + 1) ++ [45, 48, 49]

/-- Comparison of two nullable start times: ascending with NULLs last (the
PostgreSQL ASC default). -/
def timeLe : Option Str → Option Str → Bool
  | none, none => true
  | none, some _ => false
  | some _, none => true
  | some x, some y => strLe x y

/-- The ORDER BY of the calendar queries: `cleaning_date` ascending, then
`start_time` ascending. -/
def aptCalendarLe (a b : Apartment) : Bool :=
  strLt a.cleaning_date b.cleaning_date ||
    (a.cleaning_date == b.cleaning_date && timeLe a.start_time b.start_time)

/-- Embeds `DatabaseStorage.getApartmentsByMonth`: the half-open varchar
range `[monthStart, nextMonth)` on `cleaning_date`, ordered by date then
start time, each row joined with its employees. -/
def getApartmentsByMonth (s : Store) (year month : Nat) : List ApartmentWithEmployees :=
  let ms := monthStartStr year month
  let nm := nextMonthStr year month
  let fl := s.apartments.filter
    (fun a => strLe ms a.cleaning_date && strLt a.cleaning_date nm)
  (fl.mergeSort aptCalendarLe).map (fun a => ⟨a, getEmployeesForApartment s a.id⟩)

/-- One entry of the statistics `topEmployees` list. -/
structure TopEmployee where
  name : Str
  count : Nat
deriving Repr, DecidableEq

/-- One entry of the statistics `busiestDays` list. -/
structure BusyDay where
  date : Str
  count : Nat
deriving Repr, DecidableEq

/-- The aggregate object returned by `getStatistics`. -/
structure Statistics where
  totalOrders : Nat
  topEmployees : List TopEmployee
  busiestDays : List BusyDay
deriving Repr, DecidableEq

/-- JS `String.prototype.trim()`: strips leading and trailing whitespace
(here the ASCII whitespace codepoints 9-13 and 32). -/
def jsTrim (s : Str) : Str :=
  let ws : Nat → Bool := fun c => c == 32 || (9 ≤ c && c ≤ 13)
  ((s.dropWhile ws).reverse.dropWhile ws).reverse

/-- Distinct keys in first-occurrence order: a deterministic model of the
row grouping the SQL GROUP BY produces. -/
def dedupFirst {α : Type} [DecidableEq α] (l : List α) : List α :=
  l.foldl (fun acc k => if acc.contains k then acc else acc ++ [k]) []

/-- Descending-count comparison used by the statistics ORDER BY. -/
def topEmployeeGe (a b : TopEmployee) : Bool := b.count ≤ a.count

/-- Descending-count comparison used by the busiest-days ORDER BY. -/
def busyDayGe (a b : BusyDay) : Bool := b.count ≤ a.count

/-- The display name `getStatistics` renders for an employee group: the
left-joined employee's trimmed `first last`, or the trimmed empty pair
when the join finds no employee. -/
def empName (s : Store) (eid : Nat) : Str :=
  match s.employees.find? (fun e => e.id == eid) with
  | none => jsTrim [32]
  | some e => jsTrim (e.first_name ++ [32] ++ e.last_name)

/-- The grouped assignment counts of `getStatistics` (GROUP BY
employee_id with the joined name), in first-occurrence order. -/
def empRows (s : Store) : List TopEmployee :=
  (dedupFirst (s.assignments.map (·.employee_id))).map (fun eid =>
    ⟨empName s eid,
     (s.assignments.filter (fun a => a.employee_id == eid)).length⟩)

/-- The grouped per-date apartment counts of `getStatistics` (GROUP BY
cleaning_date), in first-occurrence order. -/
def dayRows (s : Store) : List BusyDay :=
  (dedupFirst (s.apartments.map (·.cleaning_date))).map (fun d =>
    ⟨d, (s.apartments.filter (fun a => a.cleaning_date == d)).length⟩)

/-- Embeds `DatabaseStorage.getStatistics`: the total apartment count, the
top 3 employees by assignment count and the top 3 cleaning dates by
apartment count, both ordered by descending count. Within equal counts the
stable sort keeps the grouping order, modelling the arbitrary-but-stable
tie order. -/
def getStatistics (s : Store) : Statistics :=
  { totalOrders := s.apartments.length
    topEmployees := ((empRows s).mergeSort topEmployeeGe).take 3
    busiestDays := ((dayRows s).mergeSort busyDayGe).take 3 }

/-! ## Apartment route handlers (registerRoutes)

`idParam = none` models a non-numeric `:id` (`parseInt` returned NaN);
`body = none` models a body rejected by `apartmentWithEmployeesSchema`.
Each handler returns the HTTP status code together with the store the
request leaves behind. -/

/-- Embeds the `PUT /apartments/:id` handler: 400 on a bad id or invalid
body, 200 with the updated record on success, and the catch-all maps every
storage error to 500. -/
def putApartmentRoute (s : Store) (idParam : Option Nat)
    (body : Option (InsertApartment × List Nat)) : Nat × Store :=
  match idParam with
  | none => (400, s)
  | some id =>
    match body with
    | none => (400, s)
    | some (apt, ids) =>
      match updateApartment s id apt ids with
      | .ok (s', _) => (200, s')
      | .error (_, sErr) => (500, sErr)

/-- Embeds the `DELETE /apartments/:id` handler: 400 on a bad id, otherwise
it always deletes and answers 204. -/
def deleteApartmentRoute (s : Store) (idParam : Option Nat) : Nat × Store :=
  match idParam with
  | none => (400, s)
  | some id => (204, deleteApartment s id)

/-- An apartment row recorded as owned by account 2, and a store holding
only it: used to refute the ownership-scoping claim. -/
def ownedByOther : Apartment :=
  ⟨1, str "Flat", str "2024-06-01", none, str "Da Fare", str "Da Pagare",
   none, none, some 2⟩

/-- The store containing only `ownedByOther`. -/
def storeOther : Store := ⟨[ownedByOther], [], [], 2, 1, 1⟩

/-- Referential soundness: every assignment references an existing
apartment and an existing employee (what the declared foreign keys
guarantee of any reachable database state). -/
def fkSound (s : Store) : Bool :=
  s.assignments.all (fun x =>
    s.apartments.any (fun a => a.id == x.apartment_id) &&
    s.employees.any (fun e => e.id == x.employee_id))

/-- Serial soundness: every stored id lies below its serial counter (what
the SERIAL columns guarantee of any reachable database state). -/
def serialSound (s : Store) : Bool :=
  s.apartments.all (fun a => a.id < s.nextApartmentId) &&
  s.employees.all (fun e => e.id < s.nextEmployeeId) &&
  s.assignments.all (fun x => x.id < s.nextAssignmentId)

/-- Update payload used by the concrete witnesses. -/
def updPayload : InsertApartment :=
  ⟨str "Flat 3B", str "2024-06-01", none, str "Fatto", str "Pagato", none, none⟩

/-- One-order one-staff store with an existing assignment, before the
witness update. -/
def storeUpd : Store :=
  ⟨[⟨1, str "Flat 3B", str "2024-06-01", none, str "Da Fare", str "Da Pagare",
     none, none, none⟩],
   [⟨1, str "Anna", str "Bianchi", none⟩], [⟨1, 1, 1⟩], 2, 2, 2⟩

/-- The state `updateApartment` leaves after the witness update with an
empty staff list. -/
def storeUpdAfter : Store :=
  ⟨[⟨1, str "Flat 3B", str "2024-06-01", none, str "Fatto", str "Pagato",
     none, none, none⟩],
   [⟨1, str "Anna", str "Bianchi", none⟩], [], 2, 2, 2⟩

/-- The record the witness update returns. -/
def updResult : ApartmentWithEmployees :=
  ⟨⟨1, str "Flat 3B", str "2024-06-01", none, str "Fatto", str "Pagato",
    none, none, none⟩, []⟩

/-- Success projection of a database call. -/
def exceptOk {ε α : Type} : Except ε α → Bool
  | .ok _ => true
  | .error _ => false

/-- A store holding one Staff member and no Orders, used for the create
witness and counterexample. -/
def storeDup : Store := ⟨[], [⟨1, str "Anna", str "Bianchi", none⟩], [], 1, 2, 1⟩

/-- The store after the witness `createApartment` call. -/
def storeCr : Store :=
  ⟨[⟨1, str "Flat 3B", str "2024-06-01", none, str "Fatto", str "Pagato",
     none, none, none⟩],
   [⟨1, str "Anna", str "Bianchi", none⟩], [⟨1, 1, 1⟩], 2, 2, 2⟩

/-- The record the witness `createApartment` call returns. -/
def crResult : ApartmentWithEmployees :=
  ⟨⟨1, str "Flat 3B", str "2024-06-01", none, str "Fatto", str "Pagato",
    none, none, none⟩, [⟨1, str "Anna", str "Bianchi"⟩]⟩

/-- Whether a search string is free of the LIKE wildcard and escape
characters `%`, `_`, `\`. -/
def noWild (s : Str) : Bool :=
  s.all (fun c => !(c == 37) && !(c == 95) && !(c == 92))

/-- The amended search predicate: case-sensitive substring containment
across name, notes, status, payment_status with OR semantics; absent notes
match nothing. -/
def substrMatch (srch : Str) (a : Apartment) : Bool :=
  decide (srch <:+: a.name) ||
    (match a.notes with
     | none => false
     | some n => decide (srch <:+: n)) ||
    decide (srch <:+: a.status) ||
    decide (srch <:+: a.payment_status)

/-- The claim's search predicate: case-insensitive substring containment
across the same four fields. -/
def substrMatchCI (srch : Str) (a : Apartment) : Bool :=
  decide (lowerStr srch <:+: lowerStr a.name) ||
    (match a.notes with
     | none => false
     | some n => decide (lowerStr srch <:+: lowerStr n)) ||
    decide (lowerStr srch <:+: lowerStr a.status) ||
    decide (lowerStr srch <:+: lowerStr a.payment_status)

/-- The order row with the lower-case name used to refute the
case-insensitivity claim. -/
def aptMario : Apartment :=
  ⟨1, str "mario rossi", str "2024-06-01", none, str "Da Fare",
   str "Da Pagare", none, none, none⟩

/-- The store containing only `aptMario`. -/
def storeMario : Store := ⟨[aptMario], [], [], 2, 1, 1⟩

/-- Three Orders sharing the date 2024-06-01, for the statistics witness. -/
def storeStats : Store :=
  ⟨[⟨1, str "A", str "2024-06-01", none, str "Da Fare", str "Da Pagare",
     none, none, none⟩,
    ⟨2, str "B", str "2024-06-01", none, str "Da Fare", str "Da Pagare",
     none, none, none⟩,
    ⟨3, str "C", str "2024-06-01", none, str "Da Fare", str "Da Pagare",
     none, none, none⟩],
   [], [], 4, 1, 1⟩

/-- An Order dated 0999-12-15 (a valid ISO date in December of year 999). -/
def aptOld : Apartment :=
  ⟨1, str "Old", isoDate 999 12 15, none, str "Da Fare", str "Da Pagare",
   none, none, none⟩

/-- The store containing only `aptOld`. -/
def storeOld : Store := ⟨[aptOld], [], [], 2, 1, 1⟩

/-- An Order dated 2025-01-01. -/
def aptJan : Apartment :=
  ⟨1, str "Jan", isoDate 2025 1 1, none, str "Da Fare", str "Da Pagare",
   none, none, none⟩

/-- An Order dated 2024-12-05. -/
def aptDec : Apartment :=
  ⟨2, str "Dec", isoDate 2024 12 5, none, str "Da Fare", str "Da Pagare",
   none, none, none⟩

/-- The store containing `aptJan` and `aptDec`. -/
def storeJan : Store := ⟨[aptJan, aptDec], [], [], 3, 1, 1⟩

/-! ## Theorems -/

/-! ## Order lemmas for the byte-wise string comparison -/

theorem strLe_refl (a : Str) : strLe a a = true := by
  induction a with
  | nil => rfl
  | cons x xs ih => simp [strLe, ih]

theorem strLe_total (a b : Str) : strLe a b = true ∨ strLe b a = true := by
  induction a generalizing b with
  | nil => left; rfl
  | cons x xs ih =>
    cases b with
    | nil => right; rfl
    | cons y ys =>
      rcases Nat.lt_trichotomy x y with h | h | h
      · left; simp [strLe, h]
      · subst h
        rcases ih ys with h2 | h2
        · left; simp [strLe, h2]
        · right; simp [strLe, h2]
      · right; simp [strLe, h]

theorem strLe_antisymm (a b : Str) (h1 : strLe a b = true)
    (h2 : strLe b a = true) : a = b := by
  induction a generalizing b with
  | nil => cases b with
    | nil => rfl
    | cons y ys => simp [strLe] at h2
  | cons x xs ih =>
    cases b with
    | nil => simp [strLe] at h1
    | cons y ys =>
      simp [strLe] at h1 h2
      rcases h1 with h1 | ⟨he, h1⟩
      · rcases h2 with h2 | ⟨he2, h2⟩
        · omega
        · omega
      · rcases h2 with h2 | ⟨he2, h2⟩
        · omega
        · rw [he, ih ys h1 h2]

theorem strLe_trans (a b c : Str) (h1 : strLe a b = true)
    (h2 : strLe b c = true) : strLe a c = true := by
  induction a generalizing b c with
  | nil => rfl
  | cons x xs ih =>
    cases b with
    | nil => simp [strLe] at h1
    | cons y ys =>
      cases c with
      | nil => simp [strLe] at h2
      | cons z zs =>
        simp [strLe] at h1 h2 ⊢
        rcases h1 with h1 | ⟨he1, h1⟩
        · rcases h2 with h2 | ⟨he2, h2⟩
          · left; omega
          · left; omega
        · rcases h2 with h2 | ⟨he2, h2⟩
          · left; omega
          · right; exact ⟨by omega, ih ys zs h1 h2⟩

theorem strLt_eq_not_strLe (a b : Str) : strLt a b = !(strLe b a) := by
  induction a generalizing b with
  | nil => cases b <;> rfl
  | cons x xs ih =>
    cases b with
    | nil => rfl
    | cons y ys =>
      simp only [strLt, strLe, ih ys, Bool.not_or, Bool.not_and]
      rcases Nat.lt_trichotomy x y with h | h | h
      · simp [h, Nat.not_lt.mpr (Nat.le_of_lt h)]
        exact Or.inl (by omega)
      · subst h; simp
      · simp [h, Nat.not_lt.mpr (Nat.le_of_lt h), Nat.lt_asymm h]
        omega

theorem strLt_of_strLe_of_strLe_false (a b c : Str) (h1 : strLe a b = true)
    (h2 : strLe c b = false) : strLe c a = false := by
  cases hca : strLe c a with
  | false => rfl
  | true => exact absurd (strLe_trans c a b hca h1) (by simp [h2])

theorem timeLe_total (a b : Option Str) : timeLe a b = true ∨ timeLe b a = true := by
  cases a <;> cases b <;> simp [timeLe]
  exact strLe_total _ _

theorem timeLe_trans (a b c : Option Str) (h1 : timeLe a b = true)
    (h2 : timeLe b c = true) : timeLe a c = true := by
  cases a <;> cases b <;> cases c <;> simp_all [timeLe]
  exact strLe_trans _ _ _ h1 h2

theorem aptCalendarLe_total (a b : Apartment) :
    (aptCalendarLe a b || aptCalendarLe b a) = true := by
  unfold aptCalendarLe
  cases h1 : strLe a.cleaning_date b.cleaning_date with
  | false => simp [strLt_eq_not_strLe, h1]
  | true =>
    cases h2 : strLe b.cleaning_date a.cleaning_date with
    | false => simp [strLt_eq_not_strLe, h2]
    | true =>
      have he := strLe_antisymm _ _ h1 h2
      simp [strLt_eq_not_strLe, he, strLe_refl]
      exact timeLe_total _ _

theorem aptCalendarLe_trans (a b c : Apartment) (h1 : aptCalendarLe a b = true)
    (h2 : aptCalendarLe b c = true) : aptCalendarLe a c = true := by
  unfold aptCalendarLe at h1 h2 ⊢
  simp only [strLt_eq_not_strLe, Bool.or_eq_true, Bool.and_eq_true,
    Bool.not_eq_true', beq_iff_eq] at h1 h2 ⊢
  rcases h1 with h1 | ⟨he1, ht1⟩
  · rcases h2 with h2 | ⟨he2, ht2⟩
    · left
      cases hca : strLe c.cleaning_date a.cleaning_date with
      | false => rfl
      | true =>
        rcases strLe_total a.cleaning_date b.cleaning_date with hab | hba
        · exact absurd (strLe_trans _ _ _ hca hab) (by simp [h2])
        · exact absurd hba (by simp [h1])
    · left; rw [← he2]; exact h1
  · rcases h2 with h2 | ⟨he2, ht2⟩
    · left; rw [he1]; exact h2
    · exact Or.inr ⟨he1.trans he2, timeLe_trans _ _ _ ht1 ht2⟩

/-! ## List utilities -/

theorem mem_foldl_dedup {α : Type} [DecidableEq α] (l acc : List α) (x : α) :
    (x ∈ l.foldl (fun acc k => if acc.contains k then acc else acc ++ [k]) acc) ↔
      x ∈ acc ∨ x ∈ l := by
  induction l generalizing acc with
  | nil => simp
  | cons k rest ih =>
    simp only [List.foldl_cons, ih]
    by_cases h : acc.contains k = true
    · have hk : k ∈ acc := by simpa using h
      rw [if_pos h]
      simp only [List.mem_cons]
      constructor
      · rintro (hx | hx)
        · exact Or.inl hx
        · exact Or.inr (Or.inr hx)
      · rintro (hx | hx | hx)
        · exact Or.inl hx
        · exact Or.inl (hx ▸ hk)
        · exact Or.inr hx
    · rw [if_neg h]
      simp only [List.mem_append, List.mem_singleton, List.mem_cons]
      tauto

theorem mem_dedupFirst {α : Type} [DecidableEq α] (l : List α) (x : α) :
    x ∈ dedupFirst l ↔ x ∈ l := by
  unfold dedupFirst
  rw [mem_foldl_dedup]
  simp

theorem strLe_total_bool (a b : Str) : (strLe a b || strLe b a) = true := by
  rcases strLe_total a b with h | h <;> simp [h]

theorem map_apartment_map (s : Store) (l : List Apartment) :
    (l.map (fun a =>
      (⟨a, getEmployeesForApartment s a.id⟩ : ApartmentWithEmployees))).map
        (·.apartment) = l := by
  induction l with
  | nil => rfl
  | cons x xs ih => simp [ih]

/-! ## Claim theorems -/

/-- Claim C9: `listOrders` without a sortBy option returns the stored
Orders sorted descending by date, and with sortBy = "name" returns them
sorted ascending by name; in both cases the result is a permutation of the
full apartments table. -/
theorem c9_sort_order (s : Store) :
    (((getApartments s ⟨none, none⟩).map (·.apartment)).Perm s.apartments
      ∧ List.Pairwise
          (fun x y => strLe y.apartment.cleaning_date x.apartment.cleaning_date = true)
          (getApartments s ⟨none, none⟩))
    ∧ (((getApartments s ⟨some (str "name"), none⟩).map (·.apartment)).Perm s.apartments
      ∧ List.Pairwise
          (fun x y => strLe x.apartment.name y.apartment.name = true)
          (getApartments s ⟨some (str "name"), none⟩)) := by
  have hdef1 : getApartments s ⟨none, none⟩ =
      (s.apartments.mergeSort (fun a b => strLe b.cleaning_date a.cleaning_date)).map
        (fun a => ⟨a, getEmployeesForApartment s a.id⟩) := rfl
  have hdef2 : getApartments s ⟨some (str "name"), none⟩ =
      (s.apartments.mergeSort (fun a b => strLe a.name b.name)).map
        (fun a => ⟨a, getEmployeesForApartment s a.id⟩) := rfl
  refine ⟨⟨?_, ?_⟩, ?_, ?_⟩
  · rw [hdef1, map_apartment_map]
    exact List.mergeSort_perm s.apartments
      (fun a b => strLe b.cleaning_date a.cleaning_date)
  · rw [hdef1]
    exact (List.pairwise_map).mpr
      ((@List.sorted_mergeSort Apartment
          (fun a b => strLe b.cleaning_date a.cleaning_date)
          (fun a b c h1 h2 => strLe_trans _ _ _ h2 h1)
          (fun a b => strLe_total_bool _ _) s.apartments).imp (fun h => h))
  · rw [hdef2, map_apartment_map]
    exact List.mergeSort_perm s.apartments (fun a b => strLe a.name b.name)
  · rw [hdef2]
    exact (List.pairwise_map).mpr
      ((@List.sorted_mergeSort Apartment (fun a b => strLe a.name b.name)
          (fun a b c h1 h2 => strLe_trans _ _ _ h1 h2)
          (fun a b => strLe_total_bool _ _) s.apartments).imp (fun h => h))

theorem getApartments_no_search_perm (s : Store) (sortBy : Option Str) :
    ((getApartments s ⟨sortBy, none⟩).map (·.apartment)).Perm s.apartments := by
  dsimp only [getApartments]
  by_cases hs : (sortBy == some (str "name")) = true
  · rw [if_pos hs, map_apartment_map]
    exact List.mergeSort_perm _ _
  · rw [if_neg hs, map_apartment_map]
    exact List.mergeSort_perm _ _

/-- Claim C1 counterexample: a caller whose account id is 1 requests Order
1, which is owned by account 2; the claim demands a not-found signal, but
`getApartment` returns the row (whose owner is visibly 2, not 1). -/
theorem c1_counterexample :
    (getApartment storeOther 1).map (fun r => r.apartment.user_id) = some (some 2)
      ∧ (2 : Nat) ≠ 1 := by
  exact ⟨rfl, by decide⟩

/-- Claim C1 amended: the storage layer applies no ownership scoping at
all: `getApartment` yields a not-found signal exactly when no Order with
the requested id exists, and `getApartments` returns every stored Order,
whatever its owning account. -/
theorem c1_amended (s : Store) (id : Nat) (sortBy : Option Str) :
    (getApartment s id = none ↔ ∀ a ∈ s.apartments, a.id ≠ id)
    ∧ ((getApartments s ⟨sortBy, none⟩).map (·.apartment)).Perm s.apartments := by
  refine ⟨?_, getApartments_no_search_perm s sortBy⟩
  unfold getApartment
  cases hf : s.apartments.find? (fun a => a.id == id) with
  | none =>
    rw [List.find?_eq_none] at hf
    constructor
    · intro _ a ha
      simpa using hf a ha
    · intro _; rfl
  | some apt =>
    have hp : apt.id = id := by simpa using List.find?_some hf
    have hm : apt ∈ s.apartments := List.mem_of_find?_eq_some hf
    constructor
    · intro h; simp at h
    · intro h; exact absurd hp (h apt hm)

/-- Claim C1 witness: on the concrete one-row store, the amended theorem
instantiates to the concrete absence test. -/
theorem c1_witness : getApartment storeOther 5 = none :=
  (c1_amended storeOther 5 none).1.mpr (by decide)

theorem find?_id_filter_ne (emps : List Employee) (k e : Nat) (hne : k ≠ e) :
    (emps.filter (fun x => !(x.id == e))).find? (fun emp => emp.id == k)
      = emps.find? (fun emp => emp.id == k) := by
  induction emps with
  | nil => rfl
  | cons emp rest ih =>
    by_cases he : emp.id = e
    · have h1 : (emp.id == e) = true := by simpa using he
      have h2 : (emp.id == k) = false := by simp [he]; omega
      simp [List.filter_cons, h1, List.find?_cons, h2, ih]
    · have h1 : (emp.id == e) = false := by simpa using he
      by_cases hk : emp.id = k
      · have h2 : (emp.id == k) = true := by simpa using hk
        simp [List.filter_cons, h1, List.find?_cons, h2]
      · have h2 : (emp.id == k) = false := by simpa using hk
        simp [List.filter_cons, h1, List.find?_cons, h2, ih]

theorem filterMap_lookup_filter (emps : List Employee) (asgs : List Assignment)
    (e aid : Nat) :
    ((asgs.filter (fun x => !(x.employee_id == e))).filter
        (fun a => a.apartment_id == aid)).filterMap (fun a =>
          ((emps.filter (fun x => !(x.id == e))).find?
              (fun emp => emp.id == a.employee_id)).map
            (fun emp => (⟨emp.id, emp.first_name, emp.last_name⟩ : EmployeeName)))
      = ((asgs.filter (fun a => a.apartment_id == aid)).filterMap (fun a =>
          (emps.find? (fun emp => emp.id == a.employee_id)).map
            (fun emp => (⟨emp.id, emp.first_name, emp.last_name⟩ : EmployeeName)))).filter
          (fun x => !(x.id == e)) := by
  induction asgs with
  | nil => rfl
  | cons a rest ih =>
    by_cases hap : a.apartment_id = aid
    · have hap' : (a.apartment_id == aid) = true := by simpa using hap
      by_cases hemp : a.employee_id = e
      · have hemp' : (a.employee_id == e) = true := by simpa using hemp
        cases hf : emps.find? (fun emp => emp.id == a.employee_id) with
        | none =>
          simp [List.filter_cons, hap', hemp', List.filterMap_cons, hf, ih,
            -List.filter_filter, -List.find?_filter]
        | some emp =>
          have hid : emp.id = a.employee_id := by simpa using List.find?_some hf
          rw [hemp] at hf hid
          simp [List.filter_cons, hap', hemp', hemp, List.filterMap_cons, hf,
            hid, ih, -List.filter_filter, -List.find?_filter]
      · have hemp' : (a.employee_id == e) = false := by simpa using hemp
        cases hf : emps.find? (fun emp => emp.id == a.employee_id) with
        | none =>
          simp [List.filter_cons, hap', hemp', List.filterMap_cons,
            find?_id_filter_ne emps a.employee_id e hemp, hf, ih,
            -List.filter_filter, -List.find?_filter]
        | some emp =>
          have hid : emp.id = a.employee_id := by simpa using List.find?_some hf
          have hkeep : ¬(emp.id = e) := by omega
          simp [List.filter_cons, hap', hemp', List.filterMap_cons,
            find?_id_filter_ne emps a.employee_id e hemp, hf, hkeep, ih,
            -List.filter_filter, -List.find?_filter]
    · have hap' : (a.apartment_id == aid) = false := by simpa using hap
      by_cases hemp : a.employee_id = e
      · have hemp' : (a.employee_id == e) = true := by simpa using hemp
        simp [List.filter_cons, hap', hemp', ih,
          -List.filter_filter, -List.find?_filter]
      · have hemp' : (a.employee_id == e) = false := by simpa using hemp
        simp [List.filter_cons, hap', hemp', ih,
          -List.filter_filter, -List.find?_filter]

theorem getEmployeesForApartment_deleteEmployee (s : Store) (e aid : Nat) :
    getEmployeesForApartment (deleteEmployee s e) aid
      = (getEmployeesForApartment s aid).filter (fun x => !(x.id == e)) :=
  filterMap_lookup_filter s.employees s.assignments e aid

/-- Claim C7: deleting a Staff member leaves every Order row fully
unchanged, removes that member from the assigned-staff list of every
Order, and deletes all of the member's Assignments (the declared cascade). -/
theorem c7_delete_staff_frame (s : Store) (e : Nat) :
    (deleteEmployee s e).apartments = s.apartments
    ∧ (deleteEmployee s e).assignments
        = s.assignments.filter (fun x => !(x.employee_id == e))
    ∧ ∀ id r, getApartment s id = some r →
        getApartment (deleteEmployee s e) id
          = some ⟨r.apartment, r.employees.filter (fun x => !(x.id == e))⟩ := by
  refine ⟨rfl, rfl, ?_⟩
  intro id r hr
  unfold getApartment at hr ⊢
  cases hf : s.apartments.find? (fun a => a.id == id) with
  | none => rw [hf] at hr; cases hr
  | some apt =>
    rw [hf] at hr
    have hap : (deleteEmployee s e).apartments = s.apartments := rfl
    rw [hap, hf]
    cases hr
    rw [getEmployeesForApartment_deleteEmployee]

/-- Claim C7 witness: the frame theorem applied to the demo-sized store
with employee 1 deleted. -/
theorem c7_witness :
    getApartment (deleteEmployee (⟨[⟨1, str "Flat", str "2024-06-01", none,
        str "Da Fare", str "Da Pagare", none, none, none⟩],
      [⟨1, str "Anna", str "Bianchi", none⟩], [⟨1, 1, 1⟩], 2, 2, 2⟩ : Store) 1) 1
      = some ⟨⟨1, str "Flat", str "2024-06-01", none, str "Da Fare",
          str "Da Pagare", none, none, none⟩, []⟩ := by
  have h := (c7_delete_staff_frame (⟨[⟨1, str "Flat", str "2024-06-01", none,
      str "Da Fare", str "Da Pagare", none, none, none⟩],
    [⟨1, str "Anna", str "Bianchi", none⟩], [⟨1, 1, 1⟩], 2, 2, 2⟩ : Store) 1).2.2 1
    ⟨⟨1, str "Flat", str "2024-06-01", none, str "Da Fare", str "Da Pagare",
      none, none, none⟩,
     [⟨1, str "Anna", str "Bianchi"⟩]⟩ (by decide)
  simpa using h

/-- Claim C10: DELETE /apartments/:id with a well-formed numeric id always
answers 204 — the delete endpoint has no 404 outcome — and when no Order
with that id exists (in a referentially sound store) the store is left
unchanged. -/
theorem c10_delete_idempotent (s : Store) (n : Nat) :
    (deleteApartmentRoute s (some n)).1 = 204
    ∧ (∀ p, (deleteApartmentRoute s p).1 ≠ 404)
    ∧ ((∀ a ∈ s.apartments, a.id ≠ n) → fkSound s = true →
        (deleteApartmentRoute s (some n)).2 = s) := by
  refine ⟨rfl, ?_, ?_⟩
  · intro p; cases p <;> simp [deleteApartmentRoute]
  · intro hno hfk
    show deleteApartment s n = s
    unfold deleteApartment
    have h1 : s.apartments.filter (fun a => !(a.id == n)) = s.apartments := by
      rw [List.filter_eq_self]
      intro a ha; simpa using hno a ha
    have h2 : s.assignments.filter (fun x => !(x.apartment_id == n))
        = s.assignments := by
      rw [List.filter_eq_self]
      intro x hx
      simp only [fkSound, List.all_eq_true] at hfk
      have hx2 := hfk x hx
      simp only [Bool.and_eq_true, List.any_eq_true, beq_iff_eq] at hx2
      obtain ⟨⟨a, ha, hae⟩, -⟩ := hx2
      have := hno a ha
      simp; omega
    rw [h1, h2]

/-- Claim C10 witness: deleting the absent id 5 from the one-row store
answers 204 and leaves the store untouched. -/
theorem c10_witness :
    (deleteApartmentRoute storeOther (some 5)).1 = 204
      ∧ (deleteApartmentRoute storeOther (some 5)).2 = storeOther :=
  ⟨(c10_delete_idempotent storeOther 5).1,
   (c10_delete_idempotent storeOther 5).2.2 (by decide) (by decide)⟩

theorem createAssignment_ok (s : Store) (aid eid : Nat) (s1 : Store)
    (asg : Assignment) (h : createAssignment s aid eid = .ok (s1, asg)) :
    s1 = { s with
            assignments := s.assignments ++ [⟨s.nextAssignmentId, aid, eid⟩],
            nextAssignmentId := s.nextAssignmentId + 1 } := by
  unfold createAssignment at h
  by_cases h1 : s.assignments.any
      (fun x => x.apartment_id == aid && x.employee_id == eid) = true
  · rw [if_pos h1] at h; cases h
  · rw [if_neg h1] at h
    by_cases h2 : s.apartments.any (fun a => a.id == aid) = true
    · rw [if_neg (by simp [h2])] at h
      by_cases h3 : s.employees.any (fun e => e.id == eid) = true
      · rw [if_neg (by simp [h3])] at h
        cases h; rfl
      · rw [if_pos (by simp [Bool.not_eq_true] at h3 ⊢; exact h3)] at h
        cases h
    · rw [if_pos (by simp [Bool.not_eq_true] at h2 ⊢; exact h2)] at h
      cases h

theorem createAssignment_eq_ok (s : Store) (aid eid : Nat)
    (h1 : s.assignments.any
      (fun x => x.apartment_id == aid && x.employee_id == eid) = false)
    (h2 : s.apartments.any (fun a => a.id == aid) = true)
    (h3 : s.employees.any (fun e => e.id == eid) = true) :
    createAssignment s aid eid =
      .ok ({ s with
              assignments := s.assignments ++ [⟨s.nextAssignmentId, aid, eid⟩],
              nextAssignmentId := s.nextAssignmentId + 1 },
           ⟨s.nextAssignmentId, aid, eid⟩) := by
  unfold createAssignment
  rw [if_neg (by simp [h1]), if_neg (by simp [h2]), if_neg (by simp [h3])]

theorem insertAssignments_shape (aptId : Nat) (L : List Nat) (s s' : Store)
    (h : insertAssignments aptId L s = .ok s') :
    s'.apartments = s.apartments ∧ s'.employees = s.employees ∧
    s'.nextApartmentId = s.nextApartmentId ∧
    ∃ extra : List Assignment, s'.assignments = s.assignments ++ extra ∧
      extra.map (·.employee_id) = L ∧ ∀ x ∈ extra, x.apartment_id = aptId := by
  induction L generalizing s with
  | nil =>
    simp only [insertAssignments] at h
    cases h
    exact ⟨rfl, rfl, rfl, [], by simp, rfl, by simp⟩
  | cons e rest ih =>
    unfold insertAssignments at h
    cases hc : createAssignment s aptId e with
    | error err => rw [hc] at h; simp at h
    | ok p =>
      obtain ⟨s1, asg⟩ := p
      rw [hc] at h
      have hs1 := createAssignment_ok s aptId e s1 asg hc
      obtain ⟨ha, he, hn, extra, hx, hm, hall⟩ := ih s1 h
      subst hs1
      refine ⟨ha, he, hn, ⟨s.nextAssignmentId, aptId, e⟩ :: extra, ?_, ?_, ?_⟩
      · rw [hx]; simp
      · simp [hm]
      · intro x hx2
        rcases List.mem_cons.mp hx2 with rfl | hx2
        · rfl
        · exact hall x hx2

theorem filter_not_filter_nil (l : List Assignment) (id : Nat) :
    ((l.filter (fun a => !(a.apartment_id == id))).filter
      (fun x => x.apartment_id == id)) = [] := by
  induction l with
  | nil => rfl
  | cons a rest ih =>
    by_cases h : a.apartment_id = id
    · simp [List.filter_cons, h, ih, -List.filter_filter]
    · simp [List.filter_cons, h, ih, -List.filter_filter]

/-- Claim C3: a completed `updateOrder` ends with the Order's Assignment
set being exactly one pair per provided staff id — the prior Assignment
set does not survive — with an empty list the subsequent `getOrder`
reports an empty staff list, and on an existing Order the empty-list
update always completes, unassigning everyone. -/
theorem c3_update_replaces_assignments (s : Store) (id : Nat)
    (apt : InsertApartment) (L : List Nat) (s' : Store)
    (r : ApartmentWithEmployees)
    (h : updateApartment s id apt L = .ok (s', r)) :
    (((s'.assignments.filter (fun x => x.apartment_id == id)).map
        (·.employee_id)) = L
      ∧ (L = [] → getApartment s' id = some r ∧ r.employees = []))
    ∧ ((∃ apt0 ∈ s.apartments, apt0.id = id) →
        ∃ s2 r2, updateApartment s id apt [] = .ok (s2, r2)
          ∧ r2.employees = []) := by
  refine ⟨?_, ?_⟩
  case refine_2 =>
    rintro ⟨apt0, ha0, hid⟩
    have hsome : (((deleteAssignmentsByApartment (updateFields s id apt)
        id).apartments).find? (fun a => a.id == id)).isSome := by
      rw [List.find?_isSome]
      refine ⟨if apt0.id == id then applyUpdate apt0 apt else apt0, ?_, ?_⟩
      · show _ ∈ (updateFields s id apt).apartments
        simp only [updateFields]
        exact List.mem_map_of_mem _ ha0
      · rw [if_pos (by simpa using hid)]
        simpa [applyUpdate] using hid
    unfold updateApartment
    dsimp only [insertAssignments]
    unfold getApartment
    cases hfind : (((deleteAssignmentsByApartment (updateFields s id apt)
        id).apartments).find? (fun a => a.id == id)) with
    | none => rw [hfind] at hsome; simp at hsome
    | some apt2 =>
      refine ⟨_, _, rfl, ?_⟩
      show getEmployeesForApartment
        (deleteAssignmentsByApartment (updateFields s id apt) id) id = []
      unfold getEmployeesForApartment
      rw [show ((deleteAssignmentsByApartment (updateFields s id apt)
          id).assignments).filter (fun x => x.apartment_id == id) = []
        from filter_not_filter_nil _ id]
      rfl
  unfold updateApartment at h
  cases hins : insertAssignments id L
      (deleteAssignmentsByApartment (updateFields s id apt) id) with
  | error e => rw [hins] at h; simp at h
  | ok s3 =>
    rw [hins] at h
    dsimp only [] at h
    cases hget : getApartment s3 id with
    | none => rw [hget] at h; simp at h
    | some r0 =>
      rw [hget] at h
      have hsr : s3 = s' ∧ r0 = r := by
        cases h; exact ⟨rfl, rfl⟩
      obtain ⟨rfl, rfl⟩ := hsr
      obtain ⟨-, -, -, extra, hx, hm, hall⟩ :=
        insertAssignments_shape id L _ s3 hins
      have hbase : (((deleteAssignmentsByApartment (updateFields s id apt)
          id).assignments).filter (fun x => x.apartment_id == id)) = [] :=
        filter_not_filter_nil _ id
      have hfilter : (s3.assignments.filter
          (fun x => x.apartment_id == id)).map (·.employee_id) = L := by
        rw [hx, List.filter_append, hbase, List.nil_append]
        have : extra.filter (fun x => x.apartment_id == id) = extra := by
          rw [List.filter_eq_self]
          intro x hxm; simpa using hall x hxm
        rw [this, hm]
      refine ⟨hfilter, ?_⟩
      intro hL
      subst hL
      refine ⟨hget, ?_⟩
      have hempty : s3.assignments.filter (fun x => x.apartment_id == id) = [] := by
        cases hfe : s3.assignments.filter (fun x => x.apartment_id == id) with
        | nil => rfl
        | cons y ys => rw [hfe] at hfilter; simp at hfilter
      unfold getApartment at hget
      cases hf2 : s3.apartments.find? (fun a => a.id == id) with
      | none => rw [hf2] at hget; cases hget
      | some apt2 =>
        rw [hf2] at hget
        have : r0 = ⟨apt2, getEmployeesForApartment s3 id⟩ := by
          cases hget; rfl
        rw [this]
        unfold getEmployeesForApartment
        rw [hempty]
        rfl

/-- Claim C3 witness: updating Order 1 with an empty staff list clears its
Assignment set and `getOrder` then reports no staff. -/
theorem c3_witness :
    ((storeUpdAfter.assignments.filter (fun x => x.apartment_id == 1)).map
        (·.employee_id)) = ([] : List Nat)
      ∧ getApartment storeUpdAfter 1 = some updResult
      ∧ updResult.employees = [] := by
  have h := c3_update_replaces_assignments storeUpd 1 updPayload []
    storeUpdAfter updResult rfl
  exact ⟨h.1.1, h.1.2 rfl⟩

/-- Claim C4 (the code as written): a PUT whose well-formed id matches no
Order, with a schema-valid body, always answers 500: the route's catch-all
turns the not-found throw (or the foreign-key failure) into a 500, and the
PUT handler has no 404 outcome. -/
theorem c4_put_missing_id_500 (s : Store) (n : Nat) (apt : InsertApartment)
    (L : List Nat) (h : ∀ a ∈ s.apartments, a.id ≠ n) :
    (putApartmentRoute s (some n) (some (apt, L))).1 = 500 := by
  unfold putApartmentRoute
  cases hu : updateApartment s n apt L with
  | error e => obtain ⟨e1, e2⟩ := e; dsimp only []; rw [hu]
  | ok p =>
    exfalso
    obtain ⟨s3, r⟩ := p
    unfold updateApartment at hu
    cases hins : insertAssignments n L
        (deleteAssignmentsByApartment (updateFields s n apt) n) with
    | error e => rw [hins] at hu; simp at hu
    | ok s3' =>
      rw [hins] at hu
      dsimp only [] at hu
      obtain ⟨ha, -, -, -⟩ := insertAssignments_shape n L _ s3' hins
      have hnone : s3'.apartments.find? (fun a => a.id == n) = none := by
        rw [List.find?_eq_none]
        intro a hma
        rw [ha] at hma
        have hma' : a ∈ (updateFields s n apt).apartments := hma
        simp only [updateFields, List.mem_map] at hma'
        obtain ⟨b, hb, rfl⟩ := hma'
        have hbn := h b hb
        rw [if_neg (by simpa using hbn)]
        simpa using hbn
      unfold getApartment at hu
      rw [hnone] at hu
      simp at hu

/-- Claim C4 witness: on the empty store, PUT /apartments/1 with a valid
body yields status 500. -/
theorem c4_witness :
    (putApartmentRoute (⟨[], [], [], 1, 1, 1⟩ : Store) (some 1)
      (some (updPayload, []))).1 = 500 :=
  c4_put_missing_id_500 _ 1 updPayload [] (by decide)

theorem insertAssignments_succeeds (aptId : Nat) (L : List Nat) :
    ∀ s : Store, L.Nodup →
      s.apartments.any (fun a => a.id == aptId) = true →
      (∀ e ∈ L, s.employees.any (fun x => x.id == e) = true) →
      (∀ x ∈ s.assignments, x.apartment_id = aptId → x.employee_id ∉ L) →
      ∃ s', insertAssignments aptId L s = .ok s' := by
  induction L with
  | nil => intro s _ _ _ _; exact ⟨s, rfl⟩
  | cons e rest ih =>
    intro s hnd hapt hemp hnew
    have h1 : s.assignments.any
        (fun x => x.apartment_id == aptId && x.employee_id == e) = false := by
      by_contra hc
      rw [Bool.not_eq_false] at hc
      simp only [List.any_eq_true, Bool.and_eq_true, beq_iff_eq] at hc
      obtain ⟨x, hx, hxa, hxe⟩ := hc
      exact hnew x hx hxa (by rw [hxe]; exact List.mem_cons_self e rest)
    unfold insertAssignments
    rw [createAssignment_eq_ok s aptId e h1 hapt
      (hemp e (List.mem_cons_self e rest))]
    dsimp only []
    apply ih
    · exact (List.nodup_cons.mp hnd).2
    · simpa using hapt
    · intro e' he'; simpa using hemp e' (List.mem_cons_of_mem e he')
    · intro x hx hxa
      rcases List.mem_append.mp hx with hx | hx
      · intro hmem; exact hnew x hx hxa (List.mem_cons_of_mem e hmem)
      · simp only [List.mem_singleton] at hx
        subst hx
        intro hmem
        exact (List.nodup_cons.mp hnd).1 (by simpa using hmem)

theorem find?_append_last {α : Type} (l : List α) (x : α) (p : α → Bool)
    (hl : ∀ y ∈ l, p y = false) (hx : p x = true) :
    (l ++ [x]).find? p = some x := by
  induction l with
  | nil => simp [List.find?_cons, hx]
  | cons y ys ih =>
    simp only [List.cons_append, List.find?_cons,
      hl y (List.mem_cons_self y ys)]
    exact ih (fun z hz => hl z (List.mem_cons_of_mem _ hz))

theorem filterMap_lookup_ids (emps : List Employee) (extra : List Assignment)
    (h : ∀ x ∈ extra, emps.any (fun e => e.id == x.employee_id) = true) :
    ((extra.filterMap (fun a =>
        (emps.find? (fun e => e.id == a.employee_id)).map
          (fun e => (⟨e.id, e.first_name, e.last_name⟩ : EmployeeName)))).map
        (·.id))
      = extra.map (·.employee_id) := by
  induction extra with
  | nil => rfl
  | cons a rest ih =>
    have hav := h a (List.mem_cons_self a rest)
    cases hf : emps.find? (fun e => e.id == a.employee_id) with
    | none =>
      exfalso
      rw [List.find?_eq_none] at hf
      simp only [List.any_eq_true] at hav
      obtain ⟨e, he, hee⟩ := hav
      exact hf e he hee
    | some emp =>
      have hid : emp.id = a.employee_id := by simpa using List.find?_some hf
      simp [List.filterMap_cons, hf, hid,
        ih (fun x hx => h x (List.mem_cons_of_mem _ hx))]

/-- Claim C6 amended: for a duplicate-free staff-id list whose ids all
denote existing Staff, `createOrder` succeeds and an immediate `getOrder`
on the new id returns the very record that was created: identical field
values and exactly the provided staff ids (so the staff set does not
depend on the list's order); duplicate ids in the input instead make the
assignment INSERT fail on the unique-pair constraint. -/
theorem c6_amended (s : Store) (apt : InsertApartment) (L : List Nat)
    (hnd : L.Nodup)
    (hex : ∀ e ∈ L, s.employees.any (fun x => x.id == e) = true)
    (hfk : fkSound s = true) (hser : serialSound s = true) :
    ∃ s2 r, createApartment s apt L = .ok (s2, r)
      ∧ getApartment s2 s.nextApartmentId = some r
      ∧ r.apartment.name = apt.name
      ∧ r.apartment.cleaning_date = apt.cleaning_date
      ∧ r.apartment.start_time = apt.start_time
      ∧ r.apartment.status = apt.status
      ∧ r.apartment.payment_status = apt.payment_status
      ∧ r.apartment.notes = apt.notes
      ∧ r.apartment.price = apt.price
      ∧ (r.employees.map (·.id)) = L := by
  have hser' : ∀ a ∈ s.apartments, a.id < s.nextApartmentId := by
    intro a ha
    simp only [serialSound, Bool.and_eq_true, List.all_eq_true] at hser
    simpa using hser.1.1 a ha
  have hnoasg : ∀ x ∈ s.assignments, x.apartment_id ≠ s.nextApartmentId := by
    intro x hx
    simp only [fkSound, List.all_eq_true] at hfk
    have h2 := hfk x hx
    simp only [Bool.and_eq_true, List.any_eq_true, beq_iff_eq] at h2
    obtain ⟨⟨a, ha, hae⟩, -⟩ := h2
    have := hser' a ha
    omega
  obtain ⟨s2, hins⟩ := insertAssignments_succeeds s.nextApartmentId L
    (afterRowInsert s apt) hnd
    (by simp [afterRowInsert, newRow])
    (by intro e he; simpa [afterRowInsert] using hex e he)
    (by intro x hx hxa
        exact absurd hxa (hnoasg x hx))
  obtain ⟨hap2, hemp2, -, extra, hx2, hm2, hall2⟩ :=
    insertAssignments_shape _ _ _ _ hins
  have hins' : insertAssignments (newRow s apt).id L (afterRowInsert s apt)
      = .ok s2 := hins
  have hemp2' : s2.employees = s.employees := hemp2
  have hcreate : createApartment s apt L =
      .ok (s2, ⟨newRow s apt, getEmployeesForApartment s2 (newRow s apt).id⟩) := by
    unfold createApartment
    rw [hins']
  have hfind : s2.apartments.find?
      (fun a => a.id == s.nextApartmentId) = some (newRow s apt) := by
    rw [hap2]
    show (s.apartments ++ [newRow s apt]).find? _ = _
    apply find?_append_last
    · intro y hy
      have := hser' y hy
      simp; omega
    · simp [newRow]
  have hemps : getEmployeesForApartment s2 (newRow s apt).id =
      extra.filterMap (fun a =>
        (s.employees.find? (fun e => e.id == a.employee_id)).map
          (fun e => (⟨e.id, e.first_name, e.last_name⟩ : EmployeeName))) := by
    unfold getEmployeesForApartment
    rw [hx2, hemp2']
    show ((((afterRowInsert s apt).assignments ++ extra).filter
      (fun a => a.apartment_id == (newRow s apt).id)).filterMap _) = _
    rw [List.filter_append]
    have hleft : (afterRowInsert s apt).assignments.filter
        (fun a => a.apartment_id == (newRow s apt).id) = [] := by
      rw [List.filter_eq_nil_iff]
      intro x hx
      have := hnoasg x hx
      simpa [newRow] using this
    have hright : extra.filter
        (fun a => a.apartment_id == (newRow s apt).id) = extra := by
      rw [List.filter_eq_self]
      intro x hxm
      simpa [newRow] using hall2 x hxm
    rw [hleft, hright, List.nil_append]
  refine ⟨s2, ⟨newRow s apt, getEmployeesForApartment s2 (newRow s apt).id⟩,
    hcreate, ?_, rfl, rfl, rfl, rfl, rfl, rfl, rfl, ?_⟩
  · unfold getApartment
    rw [hfind]
    rfl
  · show (getEmployeesForApartment s2 (newRow s apt).id).map (·.id) = L
    rw [hemps, filterMap_lookup_ids]
    · rw [hm2]
    · intro x hxm
      rw [← hm2] at hex
      exact hex x.employee_id (List.mem_map_of_mem _ hxm)

/-- Claim C6 counterexample: creating an Order with the duplicate staff
list [1, 1] fails (the second assignment INSERT violates the unique-pair
constraint) instead of collapsing the duplicate. -/
theorem c6_counterexample :
    exceptOk (createApartment storeDup updPayload [1, 1]) = false := rfl

/-- Claim C6 witness: creating an Order assigned to staff 1 and reading it
back returns the created record with exactly staff id 1. -/
theorem c6_witness :
    createApartment storeDup updPayload [1] = .ok (storeCr, crResult)
      ∧ getApartment storeCr 1 = some crResult
      ∧ crResult.employees.map (·.id) = [1] := by
  obtain ⟨s2, r, h1, h2, -, -, -, -, -, -, -, h3⟩ :=
    c6_amended storeDup updPayload [1] (by decide) (by decide) (by decide)
      (by decide)
  rw [show createApartment storeDup updPayload [1]
      = .ok (storeCr, crResult) from rfl] at h1
  cases h1
  exact ⟨rfl, h2, h3⟩

/-! ## LIKE matching versus substring containment -/

theorem likeMatch_nil (ts : Str) : likeMatch [] ts = ts.isEmpty := by
  rw [likeMatch.eq_def]

theorem likeMatch_cons_pct (ps ts : Str) :
    likeMatch (37 :: ps) ts
      = (likeMatch ps ts ||
          (match ts with
           | [] => false
           | _ :: ts' => likeMatch (37 :: ps) ts')) := by
  rw [likeMatch.eq_def]
  simp

theorem likeMatch_cons_lit (c : Nat) (ps ts : Str) (e37 : (c == 37) = false)
    (e95 : (c == 95) = false) (e92 : (c == 92) = false) :
    likeMatch (c :: ps) ts
      = (match ts with
         | [] => false
         | t :: ts' => c == t && likeMatch ps ts') := by
  rw [likeMatch.eq_def]
  simp [e37, e95, e92]

theorem likeMatch_pct (ps ts : Str) :
    likeMatch (37 :: ps) ts = true ↔ ∃ n, likeMatch ps (ts.drop n) = true := by
  induction ts with
  | nil =>
    rw [likeMatch_cons_pct]
    constructor
    · intro h
      refine ⟨0, ?_⟩
      simpa using h
    · rintro ⟨n, hn⟩
      simp only [List.drop_nil] at hn
      simp [hn]
  | cons t ts' ih =>
    rw [likeMatch_cons_pct]
    constructor
    · intro h
      rcases (by simpa using h :
          likeMatch ps (t :: ts') = true ∨ likeMatch (37 :: ps) ts' = true) with
        h | h
      · exact ⟨0, h⟩
      · obtain ⟨n, hn⟩ := ih.mp h
        exact ⟨n + 1, hn⟩
    · rintro ⟨n, hn⟩
      cases n with
      | zero =>
        simp only [List.drop_zero] at hn
        simp [hn]
      | succ n =>
        have h2 := ih.mpr ⟨n, hn⟩
        simp [h2]

theorem likeMatch_lit :
    ∀ sL : Str, (∀ c ∈ sL, ¬c = 37 ∧ ¬c = 95 ∧ ¬c = 92) →
      ∀ ts, (likeMatch (sL ++ [37]) ts = true ↔ sL <+: ts) := by
  intro sL
  induction sL with
  | nil =>
    intro _ ts
    simp only [List.nil_append]
    constructor
    · intro _; exact List.nil_prefix
    · intro _
      rw [likeMatch_pct]
      exact ⟨ts.length, by simp [likeMatch_nil, List.drop_length]⟩
  | cons c cs ih =>
    intro hw ts
    obtain ⟨h37, h95, h92⟩ := hw c (List.mem_cons_self c cs)
    have e37 : (c == 37) = false := by simpa using h37
    have e95 : (c == 95) = false := by simpa using h95
    have e92 : (c == 92) = false := by simpa using h92
    have hw' : ∀ x ∈ cs, ¬x = 37 ∧ ¬x = 95 ∧ ¬x = 92 :=
      fun x hx => hw x (List.mem_cons_of_mem _ hx)
    cases ts with
    | nil =>
      rw [List.cons_append, likeMatch_cons_lit c (cs ++ [37]) [] e37 e95 e92]
      simp
    | cons t ts' =>
      rw [List.cons_append,
        likeMatch_cons_lit c (cs ++ [37]) (t :: ts') e37 e95 e92]
      constructor
      · intro h
        obtain ⟨hct, hrest⟩ := (by simpa using h :
            c = t ∧ likeMatch (cs ++ [37]) ts' = true)
        subst hct
        obtain ⟨w, hwapp⟩ := (ih hw' ts').mp hrest
        exact ⟨w, by rw [List.cons_append, hwapp]⟩
      · intro h
        obtain ⟨hct, hrest⟩ : c = t ∧ cs <+: ts' := by
          obtain ⟨w, hwapp⟩ := h
          simp only [List.cons_append, List.cons.injEq] at hwapp
          exact ⟨hwapp.1, ⟨w, hwapp.2⟩⟩
        subst hct
        simp [(ih hw' ts').mpr hrest]

theorem infix_iff_exists_drop (sL ts : Str) :
    sL <:+: ts ↔ ∃ n, sL <+: ts.drop n := by
  constructor
  · rintro ⟨u, v, huv⟩
    refine ⟨u.length, ?_⟩
    rw [← huv, List.append_assoc, List.drop_left]
    exact ⟨v, rfl⟩
  · rintro ⟨n, w, hwapp⟩
    refine ⟨ts.take n, w, ?_⟩
    rw [List.append_assoc, hwapp, List.take_append_drop]

theorem likeMatch_substr (sL ts : Str)
    (hw : ∀ c ∈ sL, ¬c = 37 ∧ ¬c = 95 ∧ ¬c = 92) :
    likeMatch (37 :: (sL ++ [37])) ts = true ↔ sL <:+: ts := by
  rw [likeMatch_pct, infix_iff_exists_drop]
  constructor
  · rintro ⟨n, hn⟩; exact ⟨n, (likeMatch_lit sL hw _).mp hn⟩
  · rintro ⟨n, hn⟩; exact ⟨n, (likeMatch_lit sL hw _).mpr hn⟩

theorem searchWhere_eq_substrMatch (srch : Str)
    (hw : ∀ c ∈ srch, ¬c = 37 ∧ ¬c = 95 ∧ ¬c = 92) (a : Apartment) :
    searchWhere srch a = substrMatch srch a := by
  have hfield : ∀ t : Str,
      likeMatch (37 :: (srch ++ [37])) t = decide (srch <:+: t) := by
    intro t
    rw [Bool.eq_iff_iff, likeMatch_substr srch t hw]
    simp
  unfold searchWhere substrMatch
  rcases hna : a.notes with _ | n
  · simp only [hna]
    rw [hfield a.name, hfield a.status, hfield a.payment_status]
  · simp only [hna]
    rw [hfield a.name, hfield n, hfield a.status, hfield a.payment_status]

/-- Claim C2 amended: for a search string free of LIKE wildcard and escape
characters, the listing with search = s returns exactly the Orders for
which at least one of name, notes, status, payment_status contains s as a
substring compared case-SENSITIVELY (OR semantics), and no others. -/
theorem c2_amended (s : Store) (srch : Str) (sortBy : Option Str)
    (hw : noWild srch = true) :
    ((getApartments s ⟨sortBy, some srch⟩).map (·.apartment)).Perm
      (s.apartments.filter (substrMatch srch)) := by
  have hwild : ∀ c ∈ srch, ¬c = 37 ∧ ¬c = 95 ∧ ¬c = 92 := by
    intro c hc
    simp only [noWild, List.all_eq_true] at hw
    have h2 := hw c hc
    simp only [Bool.and_eq_true, Bool.not_eq_true', beq_eq_false_iff_ne,
      ne_eq] at h2
    exact ⟨h2.1.1, h2.1.2, h2.2⟩
  have hfc : s.apartments.filter (searchWhere srch)
      = s.apartments.filter (substrMatch srch) :=
    List.filter_congr (fun a _ => searchWhere_eq_substrMatch srch hwild a)
  dsimp only [getApartments]
  by_cases hsrch : (srch == []) = true
  · have he : srch = [] := by simpa using hsrch
    subst he
    have hself : s.apartments.filter (substrMatch []) = s.apartments := by
      rw [List.filter_eq_self]
      intro a _
      have hin : ([] : Str) <:+: a.name := ⟨[], a.name, by simp⟩
      simp [substrMatch, hin]
    rw [if_pos hsrch, hself]
    by_cases hsort : (sortBy == some (str "name")) = true
    · rw [if_pos hsort, map_apartment_map]
      exact List.mergeSort_perm _ _
    · rw [if_neg hsort, map_apartment_map]
      exact List.mergeSort_perm _ _
  · rw [if_neg hsrch, ← hfc]
    by_cases hsort : (sortBy == some (str "name")) = true
    · rw [if_pos hsort, map_apartment_map]
      exact List.mergeSort_perm _ _
    · rw [if_neg hsort, map_apartment_map]
      exact List.mergeSort_perm _ _

/-- Claim C2 counterexample: under case-insensitive matching the search
"Mario" must return the Order named "mario rossi", but the listing is
empty because SQL LIKE compared the characters case-sensitively. -/
theorem c2_counterexample :
    getApartments storeMario ⟨none, some (str "Mario")⟩ = []
      ∧ substrMatchCI (str "Mario") aptMario = true := by
  constructor
  · have hdef : getApartments storeMario ⟨none, some (str "Mario")⟩ =
        ((storeMario.apartments.filter (searchWhere (str "Mario"))).mergeSort
          (fun a b => strLe b.cleaning_date a.cleaning_date)).map
          (fun a => ⟨a, getEmployeesForApartment storeMario a.id⟩) := rfl
    rw [hdef,
      List.filter_congr
        (fun a _ => searchWhere_eq_substrMatch (str "Mario") (by decide) a),
      show storeMario.apartments.filter (substrMatch (str "Mario")) = []
        from by decide]
    simp
  · decide

/-- Claim C2 witness: the amended theorem instantiated on the one-row
store with the matching lower-case search string. -/
theorem c2_witness :
    ((getApartments storeMario ⟨none, some (str "mario")⟩).map
        (·.apartment)).Perm
      (storeMario.apartments.filter (substrMatch (str "mario"))) :=
  c2_amended storeMario (str "mario") none (by decide)

theorem top3_spec {α : Type} (le : α → α → Bool) (count : α → Nat)
    (hle : ∀ a b, le a b = true ↔ count b ≤ count a) (rows : List α) :
    ((rows.mergeSort le).take 3).length ≤ 3
    ∧ List.Pairwise (fun a b => count b ≤ count a) ((rows.mergeSort le).take 3)
    ∧ (∀ b ∈ (rows.mergeSort le).take 3, b ∈ rows)
    ∧ (∀ r ∈ rows, r ∈ (rows.mergeSort le).take 3
        ∨ ∀ b ∈ (rows.mergeSort le).take 3, count r ≤ count b) := by
  have htrans : ∀ a b c, le a b = true → le b c = true → le a c = true := by
    intro a b c h1 h2
    rw [hle] at h1 h2 ⊢
    omega
  have htotal : ∀ a b, (le a b || le b a) = true := by
    intro a b
    rcases Nat.le_total (count b) (count a) with h | h
    · simp [(hle a b).mpr h]
    · simp [(hle b a).mpr h]
  have hsorted := List.sorted_mergeSort htrans htotal rows
  have hperm := List.mergeSort_perm rows le
  refine ⟨?_, ?_, ?_, ?_⟩
  · rw [List.length_take]
    omega
  · exact (List.Pairwise.sublist (List.take_sublist 3 _) hsorted).imp
      (fun h => (hle _ _).mp h)
  · intro b hb
    exact hperm.mem_iff.mp (List.mem_of_mem_take hb)
  · intro r hr
    have hr2 : r ∈ rows.mergeSort le := hperm.mem_iff.mpr hr
    rw [← List.take_append_drop 3 (rows.mergeSort le)] at hr2
    rcases List.mem_append.mp hr2 with h | h
    · exact Or.inl h
    · right
      intro b hb
      have hpw := hsorted
      rw [← List.take_append_drop 3 (rows.mergeSort le)] at hpw
      exact (hle _ _).mp ((List.pairwise_append.mp hpw).2.2 b hb r h)

/-- Claim C8: the statistics view returns the total Order count together
with the top 3 staff by assignment count and the top 3 dates by Order
count: each list has at most three entries, carries the true group counts,
is ordered by descending count, and no omitted group outcounts a listed
entry. -/
theorem c8_statistics (s : Store) :
    (getStatistics s).totalOrders = s.apartments.length
    ∧ (getStatistics s).busiestDays.length ≤ 3
    ∧ List.Pairwise (fun a b => b.count ≤ a.count) (getStatistics s).busiestDays
    ∧ (∀ b ∈ (getStatistics s).busiestDays,
        b.date ∈ s.apartments.map (·.cleaning_date)
        ∧ b.count
            = (s.apartments.filter (fun a => a.cleaning_date == b.date)).length)
    ∧ (∀ d ∈ s.apartments.map (·.cleaning_date),
        BusyDay.mk d ((s.apartments.filter
              (fun a => a.cleaning_date == d)).length)
            ∈ (getStatistics s).busiestDays
        ∨ ∀ b ∈ (getStatistics s).busiestDays,
            (s.apartments.filter (fun a => a.cleaning_date == d)).length
              ≤ b.count)
    ∧ (getStatistics s).topEmployees.length ≤ 3
    ∧ List.Pairwise (fun a b => b.count ≤ a.count) (getStatistics s).topEmployees
    ∧ (∀ t ∈ (getStatistics s).topEmployees,
        ∃ eid ∈ s.assignments.map (·.employee_id),
          t.name = empName s eid
          ∧ t.count
              = (s.assignments.filter (fun x => x.employee_id == eid)).length)
    ∧ (∀ eid ∈ s.assignments.map (·.employee_id),
        TopEmployee.mk (empName s eid)
            ((s.assignments.filter (fun x => x.employee_id == eid)).length)
          ∈ (getStatistics s).topEmployees
        ∨ ∀ t ∈ (getStatistics s).topEmployees,
            (s.assignments.filter (fun x => x.employee_id == eid)).length
              ≤ t.count) := by
  obtain ⟨hdl, hdp, hdm, hdd⟩ := top3_spec busyDayGe (fun b => b.count)
    (by intro a b; simp [busyDayGe]) (dayRows s)
  obtain ⟨hel, hep, hem, hed⟩ := top3_spec topEmployeeGe (fun t => t.count)
    (by intro a b; simp [topEmployeeGe]) (empRows s)
  refine ⟨rfl, hdl, hdp, ?_, ?_, hel, hep, ?_, ?_⟩
  · intro b hb
    have hb2 := hdm b hb
    simp only [dayRows, List.mem_map] at hb2
    obtain ⟨d, hd, rfl⟩ := hb2
    exact ⟨(mem_dedupFirst _ _).mp hd, rfl⟩
  · intro d hd
    have hrow : BusyDay.mk d ((s.apartments.filter
        (fun a => a.cleaning_date == d)).length) ∈ dayRows s := by
      simp only [dayRows, List.mem_map]
      exact ⟨d, (mem_dedupFirst _ _).mpr hd, rfl⟩
    exact hdd _ hrow
  · intro t ht
    have ht2 := hem t ht
    simp only [empRows, List.mem_map] at ht2
    obtain ⟨eid, he, rfl⟩ := ht2
    exact ⟨eid, (mem_dedupFirst _ _).mp he, rfl, rfl⟩
  · intro eid he
    have hrow : TopEmployee.mk (empName s eid)
        ((s.assignments.filter (fun x => x.employee_id == eid)).length)
        ∈ empRows s := by
      simp only [empRows, List.mem_map]
      exact ⟨eid, (mem_dedupFirst _ _).mpr he, rfl⟩
    exact hed _ hrow

/-- Claim C8 witness: with exactly three Orders on one date, statistics
reports totalOrders = 3 and that date appears in busiestDays with count
3. -/
theorem c8_witness :
    (getStatistics storeStats).totalOrders = 3
      ∧ BusyDay.mk (str "2024-06-01") 3 ∈ (getStatistics storeStats).busiestDays := by
  constructor
  · exact (c8_statistics storeStats).1.trans rfl
  · have hperm := List.mergeSort_perm (dayRows storeStats) busyDayGe
    have hd : dayRows storeStats = [⟨str "2024-06-01", 3⟩] := by decide
    rw [hd] at hperm
    have hsing := List.perm_singleton.mp hperm
    show BusyDay.mk (str "2024-06-01") 3
        ∈ ((dayRows storeStats).mergeSort busyDayGe).take 3
    rw [hd, hsing]
    simp

/-! ## Decimal digit strings and the calendar-range lemma -/

theorem natToStrAux_irrel :
    ∀ f1 f2 n : Nat, n ≤ f1 → n ≤ f2 → natToStrAux f1 n = natToStrAux f2 n := by
  intro f1
  induction f1 with
  | zero =>
    intro f2 n h1 h2
    have hn : n = 0 := by omega
    subst hn
    cases f2 with
    | zero => rfl
    | succ g => simp [natToStrAux]
  | succ f ih =>
    intro f2 n h1 h2
    by_cases hn : n < 10
    · cases f2 with
      | zero =>
        have : n = 0 := by omega
        subst this
        simp [natToStrAux]
      | succ g => simp [natToStrAux, hn]
    · cases f2 with
      | zero => omega
      | succ g =>
        simp only [natToStrAux, if_neg hn]
        rw [ih g (n / 10) (by omega) (by omega)]

theorem natToStr_eq (n : Nat) :
    natToStr n = if n < 10 then [48 + n]
      else natToStr (n / 10) ++ [48 + n % 10] := by
  unfold natToStr
  cases n with
  | zero => simp [natToStrAux]
  | succ k =>
    by_cases h : k + 1 < 10
    · simp [natToStrAux, h]
    · simp only [natToStrAux, if_neg h]
      rw [natToStrAux_irrel k ((k + 1) / 10) ((k + 1) / 10) (by omega)
        (Nat.le_refl _)]

theorem natToStr_digits1 (n : Nat) (h : n < 10) : natToStr n = [48 + n] := by
  rw [natToStr_eq, if_pos h]

theorem natToStr_digits2 (n : Nat) (h1 : 10 ≤ n) (h2 : n < 100) :
    natToStr n = [48 + n / 10, 48 + n % 10] := by
  rw [natToStr_eq, if_neg (by omega), natToStr_digits1 (n / 10) (by omega)]
  rfl

theorem natToStr_digits3 (n : Nat) (h1 : 100 ≤ n) (h2 : n < 1000) :
    natToStr n = [48 + n / 100, 48 + n / 10 % 10, 48 + n % 10] := by
  rw [natToStr_eq, if_neg (by omega),
    natToStr_digits2 (n / 10) (by omega) (by omega)]
  have e1 : n / 10 / 10 = n / 100 := by omega
  rw [e1]
  rfl

theorem natToStr_digits4 (n : Nat) (h1 : 1000 ≤ n) (h2 : n < 10000) :
    natToStr n
      = [48 + n / 1000, 48 + n / 100 % 10, 48 + n / 10 % 10, 48 + n % 10] := by
  rw [natToStr_eq, if_neg (by omega),
    natToStr_digits3 (n / 10) (by omega) (by omega)]
  have e1 : n / 10 / 100 = n / 1000 := by omega
  have e2 : n / 10 / 10 % 10 = n / 100 % 10 := by omega
  rw [e1, e2]
  rfl

theorem pad2_digits (m : Nat) (h : m ≤ 99) :
    pad2 m = [48 + m / 10, 48 + m % 10] := by
  unfold pad2
  by_cases hm : m < 10
  · rw [natToStr_digits1 m hm]
    have e1 : m / 10 = 0 := by omega
    have e2 : m % 10 = m := by omega
    simp [e1, e2]
  · rw [natToStr_digits2 m (by omega) (by omega)]
    simp

theorem pad4_digits (y : Nat) (h : y ≤ 9999) :
    pad4 y = [48 + y / 1000, 48 + y / 100 % 10, 48 + y / 10 % 10, 48 + y % 10] := by
  unfold pad4
  by_cases h1 : y < 10
  · rw [natToStr_digits1 y h1]
    have e1 : y / 1000 = 0 := by omega
    have e2 : y / 100 % 10 = 0 := by omega
    have e3 : y / 10 % 10 = 0 := by omega
    have e4 : y % 10 = y := by omega
    simp [e1, e2, e3, e4, List.replicate]
  · by_cases h2 : y < 100
    · rw [natToStr_digits2 y (by omega) h2]
      have e1 : y / 1000 = 0 := by omega
      have e2 : y / 100 % 10 = 0 := by omega
      have e3 : y / 10 % 10 = y / 10 := by omega
      simp [e1, e2, e3, List.replicate]
    · by_cases h3 : y < 1000
      · rw [natToStr_digits3 y (by omega) h3]
        have e1 : y / 1000 = 0 := by omega
        have e2 : y / 100 % 10 = y / 100 := by omega
        simp [e1, e2, List.replicate]
      · rw [natToStr_digits4 y (by omega) (by omega)]
        simp

theorem isoDate_digits (y m d : Nat) (hy : y ≤ 9999) (hm : m ≤ 99)
    (hd : d ≤ 99) :
    isoDate y m d = [48 + y / 1000, 48 + y / 100 % 10, 48 + y / 10 % 10,
      48 + y % 10, 45, 48 + m / 10, 48 + m % 10, 45, 48 + d / 10, 48 + d % 10] := by
  unfold isoDate
  rw [pad4_digits y hy, pad2_digits m hm, pad2_digits d hd]
  rfl

theorem strLe_isoDate (y1 m1 d1 y2 m2 d2 : Nat)
    (hy1 : y1 ≤ 9999) (hy2 : y2 ≤ 9999) (hm1 : m1 ≤ 99) (hm2 : m2 ≤ 99)
    (hd1 : d1 ≤ 99) (hd2 : d2 ≤ 99) :
    (strLe (isoDate y1 m1 d1) (isoDate y2 m2 d2) = true)
      ↔ (y1 < y2 ∨ (y1 = y2 ∧ (m1 < m2 ∨ (m1 = m2 ∧ d1 ≤ d2)))) := by
  rw [isoDate_digits y1 m1 d1 hy1 hm1 hd1, isoDate_digits y2 m2 d2 hy2 hm2 hd2]
  simp only [strLe, Bool.or_eq_true, Bool.and_eq_true, decide_eq_true_eq,
    beq_iff_eq]
  constructor
  · intro h
    rcases h with h | ⟨e1, h⟩
    · exact Or.inl (by omega)
    rcases h with h | ⟨e2, h⟩
    · exact Or.inl (by omega)
    rcases h with h | ⟨e3, h⟩
    · exact Or.inl (by omega)
    rcases h with h | ⟨e4, h⟩
    · exact Or.inl (by omega)
    have hy : y1 = y2 := by omega
    rcases h with h | ⟨-, h⟩
    · omega
    rcases h with h | ⟨e5, h⟩
    · exact Or.inr ⟨hy, Or.inl (by omega)⟩
    rcases h with h | ⟨e6, h⟩
    · exact Or.inr ⟨hy, Or.inl (by omega)⟩
    have hm : m1 = m2 := by omega
    rcases h with h | ⟨-, h⟩
    · omega
    rcases h with h | ⟨e7, h⟩
    · exact Or.inr ⟨hy, Or.inr ⟨hm, by omega⟩⟩
    rcases h with h | ⟨e8, -⟩
    · exact Or.inr ⟨hy, Or.inr ⟨hm, by omega⟩⟩
    · exact Or.inr ⟨hy, Or.inr ⟨hm, by omega⟩⟩
  · intro h
    rcases h with h | ⟨hy, h | ⟨hm, hd⟩⟩
    · omega
    · subst hy
      simp only [lt_self_iff_false, false_or, true_and, and_true, Nat.lt_irrefl,
        eq_self_iff_true]
      omega
    · subst hy
      subst hm
      simp only [lt_self_iff_false, false_or, true_and, and_true, Nat.lt_irrefl,
        eq_self_iff_true]
      omega

theorem strLt_isoDate (y1 m1 d1 y2 m2 d2 : Nat)
    (hy1 : y1 ≤ 9999) (hy2 : y2 ≤ 9999) (hm1 : m1 ≤ 99) (hm2 : m2 ≤ 99)
    (hd1 : d1 ≤ 99) (hd2 : d2 ≤ 99) :
    (strLt (isoDate y1 m1 d1) (isoDate y2 m2 d2) = true)
      ↔ (y1 < y2 ∨ (y1 = y2 ∧ (m1 < m2 ∨ (m1 = m2 ∧ d1 < d2)))) := by
  have h := strLe_isoDate y2 m2 d2 y1 m1 d1 hy2 hy1 hm2 hm1 hd2 hd1
  rw [strLt_eq_not_strLe]
  cases hb : strLe (isoDate y2 m2 d2) (isoDate y1 m1 d1) with
  | true =>
    have h2 := h.mp hb
    simp only [hb, Bool.not_true]
    constructor
    · intro hf; cases hf
    · intro hf; exfalso; omega
  | false =>
    have h2 : ¬(y2 < y1 ∨ (y2 = y1 ∧ (m2 < m1 ∨ (m2 = m1 ∧ d2 ≤ d1)))) := by
      intro hx
      rw [h.mpr hx] at hb
      cases hb
    simp only [hb, Bool.not_false]
    constructor
    · intro _; omega
    · intro _; trivial

theorem pad4_eq_natToStr (y : Nat) (h1 : 1000 ≤ y) (h2 : y ≤ 9999) :
    pad4 y = natToStr y := by
  unfold pad4
  rw [natToStr_digits4 y h1 (by omega)]
  simp

theorem monthStart_eq_isoDate (y m : Nat) (h1 : 1000 ≤ y) (h2 : y ≤ 9999)
    (hm : m ≤ 99) : monthStartStr y m = isoDate y m 1 := by
  unfold monthStartStr isoDate
  rw [pad4_eq_natToStr y h1 h2, show pad2 1 = [48, 49] from rfl]
  simp

theorem nextMonth_eq_isoDate_lt (y m : Nat) (h1 : 1000 ≤ y) (h2 : y ≤ 9999)
    (hm : m ≤ 11) : nextMonthStr y m = isoDate y (m + 1) 1 := by
  unfold nextMonthStr isoDate
  rw [if_neg (by simp; omega), pad4_eq_natToStr y h1 h2,
    show pad2 1 = [48, 49] from rfl]
  simp

theorem nextMonth_eq_isoDate_12 (y : Nat) (h1 : 1000 ≤ y) (h2 : y + 1 ≤ 9999) :
    nextMonthStr y 12 = isoDate (y + 1) 1 1 := by
  unfold nextMonthStr isoDate
  rw [if_pos (by simp), pad4_eq_natToStr (y + 1) (by omega) h2,
    show pad2 1 = [48, 49] from rfl]
  simp

theorem inMonth_iff (y m y' m' d' : Nat)
    (hy1 : 1000 ≤ y) (hy2 : y ≤ 9999) (hm1 : 1 ≤ m) (hm2 : m ≤ 12)
    (hdec : m = 12 → y ≤ 9998)
    (hy' : y' ≤ 9999) (hm'1 : 1 ≤ m') (hm'2 : m' ≤ 12)
    (hd1 : 1 ≤ d') (hd2 : d' ≤ 31) :
    ((strLe (monthStartStr y m) (isoDate y' m' d')
      && strLt (isoDate y' m' d') (nextMonthStr y m)) = true)
      ↔ (y' = y ∧ m' = m) := by
  rw [Bool.and_eq_true, monthStart_eq_isoDate y m hy1 hy2 (by omega),
    strLe_isoDate y m 1 y' m' d' hy2 hy' (by omega) (by omega) (by omega)
      (by omega)]
  by_cases h12 : m = 12
  · subst h12
    rw [nextMonth_eq_isoDate_12 y hy1 (by have := hdec rfl; omega),
      strLt_isoDate y' m' d'
      (y + 1) 1 1 hy' (by omega) (by omega) (by omega) (by omega) (by omega)]
    omega
  · rw [nextMonth_eq_isoDate_lt y m hy1 hy2 (by omega), strLt_isoDate y' m' d'
      y (m + 1) 1 hy' hy2 (by omega) (by omega) (by omega) (by omega)]
    omega

theorem exists_map_apartment (s : Store) (l : List Apartment) (a : Apartment) :
    (∃ x ∈ l.map (fun b =>
      (⟨b, getEmployeesForApartment s b.id⟩ : ApartmentWithEmployees)),
        x.apartment = a) ↔ a ∈ l := by
  constructor
  · rintro ⟨x, hx, hxa⟩
    obtain ⟨b, hb, rfl⟩ := List.mem_map.mp hx
    exact hxa ▸ hb
  · intro ha
    exact ⟨⟨a, getEmployeesForApartment s a.id⟩, List.mem_map_of_mem _ ha, rfl⟩

/-- Claim C5 amended: for four-digit years y (1000-9999, with December
capped at y = 9998 so that the rollover bound is still a four-digit
January), `ordersByMonth(y, m)` returns exactly the Orders whose ISO date
lies in the half-open calendar interval [y-m-01, first day of the
following month) — for m = 12 the upper bound is January 1 of y+1 — and
the result is ordered by date ascending then start time ascending. For
query years outside this range the unpadded `${year}` bound breaks the
varchar comparison (see the counterexample). -/
theorem c5_amended (s : Store) (y m : Nat)
    (hy1 : 1000 ≤ y) (hy2 : y ≤ 9999) (hm1 : 1 ≤ m) (hm2 : m ≤ 12)
    (hdec : m = 12 → y ≤ 9998) :
    (∀ y' m' d', y' ≤ 9999 → 1 ≤ m' → m' ≤ 12 → 1 ≤ d' → d' ≤ 31 →
      ∀ a ∈ s.apartments, a.cleaning_date = isoDate y' m' d' →
        ((∃ x ∈ getApartmentsByMonth s y m, x.apartment = a)
          ↔ (y' = y ∧ m' = m)))
    ∧ (∀ x ∈ getApartmentsByMonth s y m, x.apartment ∈ s.apartments)
    ∧ List.Pairwise
        (fun x1 x2 => aptCalendarLe x1.apartment x2.apartment = true)
        (getApartmentsByMonth s y m) := by
  have hdef : getApartmentsByMonth s y m =
      ((s.apartments.filter (fun a =>
          strLe (monthStartStr y m) a.cleaning_date
            && strLt a.cleaning_date (nextMonthStr y m))).mergeSort
        aptCalendarLe).map
        (fun a => ⟨a, getEmployeesForApartment s a.id⟩) := rfl
  refine ⟨?_, ?_, ?_⟩
  · intro y' m' d' hy' hm'1 hm'2 hd1 hd2 a ha hdate
    rw [hdef, exists_map_apartment,
      (List.mergeSort_perm _ aptCalendarLe).mem_iff, List.mem_filter, hdate]
    constructor
    · rintro ⟨-, hp⟩
      exact (inMonth_iff y m y' m' d' hy1 hy2 hm1 hm2 hdec hy' hm'1 hm'2
        hd1 hd2).mp hp
    · intro hp
      exact ⟨ha, (inMonth_iff y m y' m' d' hy1 hy2 hm1 hm2 hdec hy' hm'1 hm'2
        hd1 hd2).mpr hp⟩
  · intro x hx
    rw [hdef] at hx
    obtain ⟨b, hb, rfl⟩ := List.mem_map.mp hx
    exact List.mem_of_mem_filter ((List.mergeSort_perm _ _).mem_iff.mp hb)
  · rw [hdef]
    exact (List.pairwise_map).mpr
      ((@List.sorted_mergeSort Apartment aptCalendarLe aptCalendarLe_trans
        aptCalendarLe_total _).imp (fun h => h))

/-- Claim C5 counterexample: the only Order is dated 0999-12-15, inside
the claimed interval [999-12-01, 1000-01-01), yet `ordersByMonth(999, 12)`
returns nothing: the code's lower bound is the unpadded string
"999-12-01", which compares above "0999-12-15" in the varchar order. -/
theorem c5_counterexample :
    storeOld.apartments.map (·.cleaning_date) = [isoDate 999 12 15]
      ∧ getApartmentsByMonth storeOld 999 12 = [] := by
  refine ⟨rfl, ?_⟩
  have hdef : getApartmentsByMonth storeOld 999 12 =
      ((storeOld.apartments.filter (fun a =>
          strLe (monthStartStr 999 12) a.cleaning_date
            && strLt a.cleaning_date (nextMonthStr 999 12))).mergeSort
        aptCalendarLe).map
        (fun a => ⟨a, getEmployeesForApartment storeOld a.id⟩) := rfl
  rw [hdef, show storeOld.apartments.filter (fun a =>
      strLe (monthStartStr 999 12) a.cleaning_date
        && strLt a.cleaning_date (nextMonthStr 999 12)) = [] from by decide]
  simp

/-- Claim C5 witness: `ordersByMonth(2024, 12)` includes the Order dated
2024-12-05 and excludes the one dated 2025-01-01 (the December rollover
bound). -/
theorem c5_witness :
    (∃ x ∈ getApartmentsByMonth storeJan 2024 12, x.apartment = aptDec)
      ∧ ¬(∃ x ∈ getApartmentsByMonth storeJan 2024 12, x.apartment = aptJan) := by
  have h := (c5_amended storeJan 2024 12 (by omega) (by omega) (by omega)
    (by omega) (fun _ => by omega)).1
  constructor
  · exact (h 2024 12 5 (by omega) (by omega) (by omega) (by omega) (by omega)
      aptDec (by decide) rfl).mpr ⟨rfl, rfl⟩
  · intro hx
    have h2 := (h 2025 1 1 (by omega) (by omega) (by omega) (by omega)
      (by omega) aptJan (by decide) rfl).mp hx
    omega

end OrderMaster
